import Mathlib

/-! Hand-landmark drawing demo: a shallow embedding of `src/index.js`.

The script draws the 21 landmarks of a detected hand on a 2D canvas, chooses a
capture resolution from the user agent, and reports a camera failure on the
page.  The functions of the script are embedded as Lean functions over an
explicit recording of the calls made on the 2D drawing context.

Modelling conventions
* A landmark is a JavaScript array of numbers.  Numbers are modelled as
  integers (finite pixel values); the only arithmetic the script performs on a
  coordinate is `x - 2`.
* Reading `point[k]` past the end of an array yields `undefined`; arithmetic on
  `undefined` yields `NaN`.
* Reading a property of `undefined` throws a `TypeError`.
* The drawing context is the list of calls made on it so far, oldest first.
-/

namespace Handtracking

/-! ## Values, errors and the recording surface -/

/-- A value read out of a point array and passed to a drawing call. -/
inductive Value where
  | num (n : Int)
  | undefined
  | nan
  deriving DecidableEq

/-- The JavaScript expression `v - k` for a number literal `k`. -/
def Value.sub (v : Value) (k : Int) : Value :=
  match v with
  | .num n => .num (n - k)
  | .undefined => .nan
  | .nan => .nan

/-- A landmark: an array of numbers, `[x, y, depth]` when well formed. -/
abbrev Point := List Int

/-- The JavaScript expression `point[k]` on an array of numbers. -/
def coord (point : Point) (k : Nat) : Value :=
  match point.get? k with
  | some n => .num n
  | none => .undefined

/-- An angle, as an integer multiple of `Math.PI`. -/
structure Angle where
  piTimes : Int
  deriving DecidableEq

/-- Errors a call can throw. -/
inductive JSError where
  | typeError
  | error (message : String)
  deriving DecidableEq

/-- The message carried by an error (`e.message`).  The text of a `TypeError`
is engine specific and is left empty. -/
def JSError.message : JSError → String
  | .typeError => ""
  | .error m => m

/-- A call recorded on a `Path2D` object. -/
inductive PathOp where
  | moveTo (x y : Value)
  | lineTo (x y : Value)
  | closePath
  deriving DecidableEq

/-- A `Path2D` object: the calls made on it since `new Path2D()`. -/
abbrev Path2D := List PathOp

/-- A call recorded on the 2D drawing context.  `drawImage` records its eight
numeric arguments; the image drawn is always the video element. -/
inductive Cmd where
  | beginPath
  | arc (x y : Value) (r : Int) (startAngle endAngle : Angle)
  | fill
  | stroke (region : Path2D)
  | drawImage (sx sy sw sh dx dy dw dh : Int)
  deriving DecidableEq

/-- The drawing context as a recording surface. -/
abbrev Context := List Cmd

/-- Outcome of a call that draws and may throw: the surface as the call left
it, and the error thrown, if any. -/
structure Run where
  ctx : Context
  thrown : Option JSError
  deriving DecidableEq

/-! ## The finger table (`index.js` lines 27-33) -/

/-- The object literal `fingerLookupIndices`, keys in insertion order. -/
def fingerLookupIndices : List (String × List Nat) :=
  [ ("thumb", [0, 1, 2, 3, 4]),
    ("indexFinger", [0, 5, 6, 7, 8]),
    ("middleFinger", [0, 9, 10, 11, 12]),
    ("ringFinger", [0, 13, 14, 15, 16]),
    ("pinky", [0, 17, 18, 19, 20]) ]

/-- The JavaScript call `Object.keys(obj)`. -/
def objectKeys (obj : List (String × List Nat)) : List String :=
  obj.map Prod.fst

/-- The JavaScript expression `obj[key]`; `none` is `undefined`. -/
def objectGet (obj : List (String × List Nat)) (key : String) : Option (List Nat) :=
  obj.lookup key

/-! ## Drawing (`index.js` lines 67-102) -/

/-- Embedding of `drawPoint(ctx, y, x, r)`. -/
def drawPoint (ctx : Context) (y x : Value) (r : Int) : Context :=
  ctx ++ [Cmd.beginPath, Cmd.arc x y r ⟨0⟩ ⟨2⟩, Cmd.fill]

/-- The body of the `for (let i = 1; ...)` loop of `drawPath`, run over the
points from index 1 on: `region.lineTo(point[0], point[1])`. -/
def lineToLoop : Path2D → List (Option Point) → Except JSError Path2D
  | region, [] => .ok region
  | _, none :: _ => .error .typeError
  | region, some point :: rest =>
      lineToLoop (region ++ [PathOp.lineTo (coord point 0) (coord point 1)]) rest

/-- Embedding of `drawPath(ctx, points, closePath)`.  An element of `points`
is `none` when it is `undefined`. -/
def drawPath (ctx : Context) (points : List (Option Point)) (closePath : Bool) : Run :=
  match points with
  | some p0 :: rest =>
      match lineToLoop [PathOp.moveTo (coord p0 0) (coord p0 1)] rest with
      | .error e => ⟨ctx, some e⟩
      | .ok region =>
          let region := if closePath then region ++ [PathOp.closePath] else region
          ⟨ctx ++ [Cmd.stroke region], none⟩
  | _ => ⟨ctx, some .typeError⟩

/-- The first loop of `drawKeypoints`: one `drawPoint` per keypoint. -/
def drawKeypointDots : Context → List Point → Context
  | ctx, [] => ctx
  | ctx, kp :: rest =>
      let y := coord kp 0
      let x := coord kp 1
      drawKeypointDots (drawPoint ctx (x.sub 2) (y.sub 2) 3) rest

/-- The expression `fingerLookupIndices[finger].map(idx => keypoints[idx])`
for indices `idxs`. -/
def fingerPoints (keypoints : List Point) (idxs : List Nat) : List (Option Point) :=
  idxs.map fun idx => keypoints.get? idx

/-- The second loop of `drawKeypoints`, over the remaining finger names. -/
def drawFingers (keypoints : List Point) : Context → List String → Run
  | ctx, [] => ⟨ctx, none⟩
  | ctx, finger :: rest =>
      match objectGet fingerLookupIndices finger with
      | none => ⟨ctx, some .typeError⟩
      | some idxs =>
          match drawPath ctx (fingerPoints keypoints idxs) false with
          | ⟨ctx1, none⟩ => drawFingers keypoints ctx1 rest
          | ⟨ctx1, some e⟩ => ⟨ctx1, some e⟩

/-- Embedding of `drawKeypoints(ctx, keypoints)`. -/
def drawKeypoints (ctx : Context) (keypoints : List Point) : Run :=
  drawFingers keypoints (drawKeypointDots ctx keypoints) (objectKeys fingerLookupIndices)

/-- The finger geometry computed inside `drawKeypoints`: each finger name with
the point list handed to `drawPath`. -/
def fingerGeometry (keypoints : List Point) : List (String × List (Option Point)) :=
  (objectKeys fingerLookupIndices).filterMap fun finger =>
    (objectGet fingerLookupIndices finger).map fun idxs => (finger, fingerPoints keypoints idxs)

/-! ## Capture set-up (`index.js` lines 20-24, 41-46, 104-134) -/

/-- Canonicalisation of a character by a regular expression with the `i` flag
and without the `u` flag.  ASCII letters are upper-cased.  A character outside
ASCII never canonicalises to an ASCII one, so against the all-ASCII patterns of
`isMobile` leaving it unchanged gives the same matches. -/
def canonicalize (c : Char) : Char := c.toUpper

/-- Does the literal `pat` match at the start of `s`? -/
def matchLiteral : List Char → List Char → Bool
  | [], _ => true
  | _ :: _, [] => false
  | p :: ps, c :: cs => canonicalize p == canonicalize c && matchLiteral ps cs

/-- The call `/alt1|alt2|.../i.test(s)`: try every start position from the
left, and at each position the alternatives in order. -/
def regexTest (alts : List (List Char)) : List Char → Bool
  | [] => alts.any fun alt => matchLiteral alt []
  | c :: cs => (alts.any fun alt => matchLiteral alt (c :: cs)) || regexTest alts cs

/-- Embedding of `isMobile()`, reading `navigator.userAgent`. -/
def isMobile (userAgent : String) : Bool :=
  let isAndroid := regexTest ["Android".toList] userAgent.toList
  let isiOS := regexTest ["iPhone".toList, "iPad".toList, "iPod".toList] userAgent.toList
  isAndroid || isiOS

def VIDEO_WIDTH : Nat := 640

def VIDEO_HEIGHT : Nat := 500

/-- The argument of `getUserMedia`; `none` is `undefined`. -/
structure Constraints where
  audio : Bool
  facingMode : String
  width : Option Nat
  height : Option Nat
  deriving DecidableEq

/-- How an awaited promise ends: with a value, with an error, or never. -/
inductive Settled (α : Type) where
  | resolved (a : α)
  | rejected (e : JSError)
  | pending
  deriving DecidableEq

/-- A media stream handle. -/
structure Stream where
  id : Nat
  deriving DecidableEq

/-- The video element once its metadata is known. -/
structure Video where
  videoWidth : Int
  videoHeight : Int
  deriving DecidableEq

/-- The model handle returned by `handpose.load()`. -/
structure HandModel where
  id : Nat
  deriving DecidableEq

/-- The object `navigator.mediaDevices`; `getUserMedia` is `none` when the
method is absent, and otherwise gives the outcome of the request. -/
structure MediaDevices where
  getUserMedia : Option (Constraints → Settled Stream)

structure Navigator where
  userAgent : String
  mediaDevices : Option MediaDevices

/-- What the browser and the external model library do when called. -/
structure Platform where
  navigator : Navigator
  /-- Outcome of `handpose.load()`. -/
  handposeLoad : Settled HandModel
  /-- The video as the `loadedmetadata` event delivers it; `none` when the
  event never fires. -/
  loadedMetadata : Option Video

/-- The element with id `info`.  The page is taken to contain the elements
the script looks up by id. -/
structure InfoElement where
  textContent : String
  display : String
  deriving DecidableEq

/-- The observable state of the page while the script starts. -/
structure World where
  info : InfoElement
  /-- Arguments of the `getUserMedia` calls made so far. -/
  requests : List Constraints
  /-- Whether `video.play()` has been called. -/
  played : Bool
  /-- Functions of the script entered from `landmarksRealTime` on, in order. -/
  started : List String
  deriving DecidableEq

/-- The module constant `mobile`. -/
def mobile (p : Platform) : Bool := isMobile p.navigator.userAgent

/-- The object literal passed to `getUserMedia` in `setupCamera`. -/
def captureRequest (isMobileDevice : Bool) : Constraints :=
  { audio := false
    facingMode := "user"
    width := if isMobileDevice then none else some VIDEO_WIDTH
    height := if isMobileDevice then none else some VIDEO_HEIGHT }

/-- The error thrown by `setupCamera` when media capture is unavailable. -/
def captureUnavailable : JSError :=
  .error "Browser API navigator.mediaDevices.getUserMedia not available"

/-- Embedding of `setupCamera()`. -/
def setupCamera (p : Platform) (w : World) : World × Settled Video :=
  match p.navigator.mediaDevices with
  | none => (w, .rejected captureUnavailable)
  | some mediaDevices =>
      match mediaDevices.getUserMedia with
      | none => (w, .rejected captureUnavailable)
      | some getUserMedia =>
          let request := captureRequest (mobile p)
          let w1 := { w with requests := w.requests ++ [request] }
          match getUserMedia request with
          | .rejected e => (w1, .rejected e)
          | .pending => (w1, .pending)
          | .resolved _ =>
              match p.loadedMetadata with
              | none => (w1, .pending)
              | some video => (w1, .resolved video)

/-- Embedding of `loadVideo()`. -/
def loadVideo (p : Platform) (w : World) : World × Settled Video :=
  match setupCamera p w with
  | (w1, .resolved video) => ({ w1 with played := true }, .resolved video)
  | (w1, .rejected e) => (w1, .rejected e)
  | (w1, .pending) => (w1, .pending)

/-- Embedding of `landmarksRealTime(video)`, as the script functions it
enters: the frame loop, the overlay set-up and the overlay loop. -/
def landmarksRealTime (w : World) : World :=
  { w with started := w.started ++
      ["landmarksRealTime", "setupDatGui", "frameLandmarks", "initFingers", "animate"] }

/-- Embedding of `main()`. -/
def main (p : Platform) (w : World) : World × Settled Unit :=
  match p.handposeLoad with
  | .rejected e => (w, .rejected e)
  | .pending => (w, .pending)
  | .resolved _ =>
      match loadVideo p w with
      | (w1, .rejected e) =>
          ({ w1 with info := { textContent := e.message, display := "block" } }, .rejected e)
      | (w1, .pending) => (w1, .pending)
      | (w1, .resolved _) => (landmarksRealTime w1, .resolved ())

/-! ## The frame loop (`index.js` lines 136-154) -/

/-- One element of the list returned by `model.estimateHands`. -/
structure Prediction where
  landmarks : List Point
  deriving DecidableEq

/-- A call on the statistics widget. -/
inductive StatsCall where
  | begin
  | finish
  deriving DecidableEq

/-- The state one tick of the frame loop reads and writes. -/
structure FrameState where
  ctx : Context
  videoWidth : Int
  videoHeight : Int
  canvasWidth : Int
  canvasHeight : Int
  stats : List StatsCall
  /-- Callbacks handed to `requestAnimationFrame`, oldest first. -/
  animationFrames : List String
  deriving DecidableEq

/-- The call `ctx.drawImage(video, 0, 0, videoWidth, videoHeight, 0, 0,
canvas.width, canvas.height)`. -/
def videoImage (s : FrameState) : Cmd :=
  .drawImage 0 0 s.videoWidth s.videoHeight 0 0 s.canvasWidth s.canvasHeight

/-- Embedding of one call of `frameLandmarks()`; `estimate` is how the awaited
`model.estimateHands(video)` ends.  The `pointsData` array built when
`renderPointcloud` holds is never used and has no effect. -/
def frameLandmarks (s : FrameState) (estimate : Settled (List Prediction)) :
    FrameState × Settled Unit :=
  let s1 := { s with stats := s.stats ++ [StatsCall.begin], ctx := s.ctx ++ [videoImage s] }
  match estimate with
  | .rejected e => (s1, .rejected e)
  | .pending => (s1, .pending)
  | .resolved predictions =>
      let drawn : Run :=
        match predictions with
        | [] => ⟨s1.ctx, none⟩
        | first :: _ => drawKeypoints s1.ctx first.landmarks
      match drawn.thrown with
      | some e => ({ s1 with ctx := drawn.ctx }, .rejected e)
      | none =>
          ({ s1 with
              ctx := drawn.ctx
              stats := s1.stats ++ [StatsCall.finish]
              animationFrames := s1.animationFrames ++ ["frameLandmarks"] }, .resolved ())

/-! ## Descriptions used in the statements, and sample inputs -/

/-- The three calls `drawKeypoints` makes for one keypoint. -/
def dotCalls (kp : Point) : List Cmd :=
  [Cmd.beginPath, Cmd.arc ((coord kp 0).sub 2) ((coord kp 1).sub 2) 3 ⟨0⟩ ⟨2⟩, Cmd.fill]

/-- The open polyline through a list of points: a `moveTo` to the first and a
`lineTo` to each of the others. -/
def polyline : List Point → Path2D
  | [] => []
  | p0 :: rest =>
      PathOp.moveTo (coord p0 0) (coord p0 1) ::
        rest.map fun p => PathOp.lineTo (coord p 0) (coord p 1)

/-- The landmark at index `i`, for `i` within the sequence. -/
def landmark (keypoints : List Point) (i : Nat) : Point := keypoints.getD i []

/-- The stroke call for a finger with index list `idxs`. -/
def fingerStroke (keypoints : List Point) (idxs : List Nat) : Cmd :=
  Cmd.stroke (polyline (idxs.map (landmark keypoints)))

/-- Every index of the list is a position of the keypoint sequence. -/
def reaches (n : Nat) (idxs : List Nat) : Bool := idxs.all fun idx => decide (idx < n)

/-- A hand of 21 landmarks, landmark `i` at `(100 + 10 i, 200 + 10 i)`. -/
def sampleHand : List Point :=
  (List.range 21).map fun i => [100 + 10 * (i : Int), 200 + 10 * (i : Int), 0]

/-- A truncated hand: the first 20 landmarks of `sampleHand`. -/
def shortHand : List Point := sampleHand.take 20

/-- The string `hay` contains `needle` when letter case is ignored. -/
def containsIgnoringCase (needle hay : String) : Prop :=
  ∃ before mid after : List Char, hay.toList = before ++ mid ++ after ∧
    mid.map Char.toLower = needle.toList.map Char.toLower

/-- The user agent names a mobile platform: it contains `Android`, `iPhone`,
`iPad` or `iPod`, letter case ignored. -/
def mentionsMobile (userAgent : String) : Prop :=
  containsIgnoringCase "Android" userAgent ∨ containsIgnoringCase "iPhone" userAgent ∨
    containsIgnoringCase "iPad" userAgent ∨ containsIgnoringCase "iPod" userAgent

/-- A page on which nothing has happened yet. -/
def freshWorld : World :=
  { info := { textContent := "", display := "none" }, requests := [], played := false,
    started := [] }

/-- A platform without `navigator.mediaDevices`, on which the model loads. -/
def noCapturePlatform : Platform :=
  { navigator := { userAgent := "Mozilla/5.0 (X11; Linux x86_64)", mediaDevices := none }
    handposeLoad := .resolved ⟨0⟩
    loadedMetadata := none }

/-- A platform without `navigator.mediaDevices` on which `handpose.load()`
rejects. -/
def noCaptureNoModelPlatform : Platform :=
  { navigator := { userAgent := "Mozilla/5.0 (X11; Linux x86_64)", mediaDevices := none }
    handposeLoad := .rejected (.error "model load failed")
    loadedMetadata := none }

/-- A desktop platform on which camera and model both become ready. -/
def desktopPlatform : Platform :=
  { navigator :=
      { userAgent := "Mozilla/5.0 (X11; Linux x86_64)"
        mediaDevices := some { getUserMedia := some fun _ => .resolved ⟨1⟩ } }
    handposeLoad := .resolved ⟨0⟩
    loadedMetadata := some ⟨640, 500⟩ }

/-- A frame state before the first tick, for a 640 by 500 video. -/
def freshFrame : FrameState :=
  { ctx := [], videoWidth := 640, videoHeight := 500, canvasWidth := 640, canvasHeight := 500,
    stats := [], animationFrames := [] }

/-! ## Lemmas about the drawing functions and the user-agent test -/

theorem drawKeypointDots_eq (ctx : Context) (kps : List Point) :
    drawKeypointDots ctx kps = ctx ++ (kps.map dotCalls).flatten := by
  induction kps generalizing ctx with
  | nil => simp [drawKeypointDots]
  | cons kp rest ih => simp [drawKeypointDots, ih, drawPoint, dotCalls]

theorem lineToLoop_some (region : Path2D) (ps : List Point) :
    lineToLoop region (ps.map some) =
      .ok (region ++ ps.map fun p => PathOp.lineTo (coord p 0) (coord p 1)) := by
  induction ps generalizing region with
  | nil => simp [lineToLoop]
  | cons p rest ih => simp [lineToLoop, ih]

theorem lineToLoop_none (region : Path2D) (pts : List (Option Point)) (h : none ∈ pts) :
    lineToLoop region pts = .error .typeError := by
  induction pts generalizing region with
  | nil => simp at h
  | cons p rest ih =>
    cases p with
    | none => simp [lineToLoop]
    | some q =>
      have : none ∈ rest := by simpa using h
      simp [lineToLoop, ih _ this]

theorem drawPath_defined (ctx : Context) (ps : List Point) (closePath : Bool) (h : ps ≠ []) :
    drawPath ctx (ps.map some) closePath =
      ⟨ctx ++ [Cmd.stroke (polyline ps ++ if closePath then [PathOp.closePath] else [])], none⟩ := by
  cases ps with
  | nil => exact absurd rfl h
  | cons p0 rest =>
    cases closePath <;> simp [drawPath, lineToLoop_some, polyline]

theorem drawPath_undefined (ctx : Context) (pts : List (Option Point)) (closePath : Bool)
    (h : none ∈ pts) : drawPath ctx pts closePath = ⟨ctx, some .typeError⟩ := by
  cases pts with
  | nil => simp at h
  | cons p rest =>
    cases p with
    | none => simp [drawPath]
    | some q =>
      have : none ∈ rest := by simpa using h
      simp [drawPath, lineToLoop_none _ _ this]

theorem fingerPoints_reaches (kps : List Point) (idxs : List Nat)
    (h : reaches kps.length idxs = true) :
    fingerPoints kps idxs = (idxs.map (landmark kps)).map some := by
  induction idxs with
  | nil => simp [fingerPoints]
  | cons i rest ih =>
    simp only [reaches, List.all_cons, Bool.and_eq_true, decide_eq_true_eq] at h
    have ih' := ih (by simpa [reaches] using h.2)
    simp only [fingerPoints, List.map_cons, List.map_map] at ih' ⊢
    rw [ih']
    simp [landmark, List.getD, List.getElem?_eq_getElem h.1]

theorem fingerPoints_short (kps : List Point) (idxs : List Nat)
    (h : reaches kps.length idxs = false) : none ∈ fingerPoints kps idxs := by
  induction idxs with
  | nil => simp [reaches] at h
  | cons i rest ih =>
    by_cases hi : i < kps.length
    · have : reaches kps.length rest = false := by
        simpa [reaches, hi] using h
      simp only [fingerPoints, List.map_cons, List.mem_cons]
      exact Or.inr (ih this)
    · simp only [fingerPoints, List.map_cons, List.mem_cons]
      left
      exact (List.get?_eq_none.mpr (Nat.le_of_not_lt hi)).symm

theorem drawFingers_entries (kps : List Point) (ctx : Context) (tbl : List (String × List Nat))
    (hget : ∀ e ∈ tbl, objectGet fingerLookupIndices e.1 = some e.2)
    (hne : ∀ e ∈ tbl, e.2 ≠ []) :
    drawFingers kps ctx (tbl.map Prod.fst) =
      ⟨ctx ++ (tbl.takeWhile fun e => reaches kps.length e.2).map fun e => fingerStroke kps e.2,
        if tbl.all (fun e => reaches kps.length e.2) then none else some .typeError⟩ := by
  induction tbl generalizing ctx with
  | nil => simp [drawFingers]
  | cons e rest ih =>
    have hrest := fun c => ih c (fun x hx => hget x (List.mem_cons_of_mem _ hx))
      (fun x hx => hne x (List.mem_cons_of_mem _ hx))
    have he := hget e (List.mem_cons_self _ _)
    have hn : List.map (landmark kps) e.2 ≠ [] := by
      simpa using hne e (List.mem_cons_self _ _)
    cases hr : reaches kps.length e.2 with
    | true =>
      simp only [List.map_cons, drawFingers, he, fingerPoints_reaches kps e.2 hr,
        drawPath_defined _ _ false hn, hrest, List.takeWhile_cons, hr, List.all_cons]
      simp only [fingerStroke, List.append_assoc, List.singleton_append, List.map_cons, Bool.true_and]
      simp
    | false =>
      simp only [List.map_cons, drawFingers, he,
        drawPath_undefined _ _ false (fingerPoints_short kps e.2 hr), List.takeWhile_cons, hr,
        List.all_cons]
      simp

theorem fingerLookupIndices_get :
    ∀ e ∈ fingerLookupIndices, objectGet fingerLookupIndices e.1 = some e.2 := by
  decide

theorem fingerLookupIndices_nonempty : ∀ e ∈ fingerLookupIndices, e.2 ≠ [] := by
  decide

/-- What `drawKeypoints` leaves on the surface and whether it throws, for any
keypoint sequence. -/
theorem drawKeypoints_eq (ctx : Context) (kps : List Point) :
    drawKeypoints ctx kps =
      ⟨ctx ++ (kps.map dotCalls).flatten ++
          (fingerLookupIndices.takeWhile fun e => reaches kps.length e.2).map
            fun e => fingerStroke kps e.2,
        if fingerLookupIndices.all (fun e => reaches kps.length e.2) then none
        else some .typeError⟩ := by
  unfold drawKeypoints objectKeys
  rw [drawFingers_entries kps _ fingerLookupIndices fingerLookupIndices_get
    fingerLookupIndices_nonempty, drawKeypointDots_eq]

theorem reaches_all_iff (n : Nat) :
    fingerLookupIndices.all (fun e => reaches n e.2) = true ↔ 21 ≤ n := by
  simp only [fingerLookupIndices, reaches, List.all_cons, List.all_nil, Bool.and_true,
    Bool.and_eq_true, decide_eq_true_eq]
  omega

theorem takeWhile_reaches_full (n : Nat) (h : 21 ≤ n) :
    (fingerLookupIndices.takeWhile fun e => reaches n e.2) = fingerLookupIndices := by
  rw [List.takeWhile_eq_self_iff]
  intro e he
  have := (reaches_all_iff n).mpr h
  rw [List.all_eq_true] at this
  exact this e he

/-- On a sequence of at least 21 keypoints `drawKeypoints` completes, having
drawn every dot and stroked every finger. -/
theorem drawKeypoints_full (ctx : Context) (kps : List Point) (h : 21 ≤ kps.length) :
    drawKeypoints ctx kps =
      ⟨ctx ++ (kps.map dotCalls).flatten ++
        fingerLookupIndices.map (fun e => fingerStroke kps e.2), none⟩ := by
  rw [drawKeypoints_eq, takeWhile_reaches_full kps.length h, (reaches_all_iff kps.length).mpr h]
  rfl

theorem length_polyline (ps : List Point) : (polyline ps).length = ps.length := by
  cases ps <;> simp [polyline]

theorem closePath_not_mem_polyline (ps : List Point) : PathOp.closePath ∉ polyline ps := by
  cases ps <;> simp [polyline]

theorem stroke_not_mem_dots (kps : List Point) (region : Path2D) :
    Cmd.stroke region ∉ (kps.map dotCalls).flatten := by
  simp [dotCalls]

theorem length_dots (kps : List Point) : (kps.map dotCalls).flatten.length = 3 * kps.length := by
  induction kps with
  | nil => rfl
  | cons kp rest ih =>
    rw [List.map_cons, List.flatten_cons, List.length_append, ih]
    simp [dotCalls]; omega

theorem dots_arc_at (kps : List Point) (tail : List Cmd) (i : Nat) (h : i < kps.length) :
    ((kps.map dotCalls).flatten ++ tail).get? (3 * i + 1) =
      some (Cmd.arc ((coord (landmark kps i) 0).sub 2) ((coord (landmark kps i) 1).sub 2) 3
        ⟨0⟩ ⟨2⟩) := by
  induction kps generalizing i with
  | nil => simp at h
  | cons kp rest ih =>
    cases i with
    | zero => simp [dotCalls, landmark]
    | succ j =>
      have hj : j < rest.length := by simpa using h
      have := ih j hj
      have e : 3 * (j + 1) + 1 = (3 * j + 1) + 3 := by ring
      rw [e]
      simpa [dotCalls, landmark] using this

theorem dots_begin_at (kps : List Point) (tail : List Cmd) (i : Nat) (h : i < kps.length) :
    ((kps.map dotCalls).flatten ++ tail).get? (3 * i) = some Cmd.beginPath := by
  induction kps generalizing i with
  | nil => simp at h
  | cons kp rest ih =>
    cases i with
    | zero => simp [dotCalls]
    | succ j =>
      have hj : j < rest.length := by simpa using h
      have := ih j hj
      have e : 3 * (j + 1) = (3 * j) + 3 := by ring
      rw [e]
      simpa [dotCalls] using this

theorem dots_fill_at (kps : List Point) (tail : List Cmd) (i : Nat) (h : i < kps.length) :
    ((kps.map dotCalls).flatten ++ tail).get? (3 * i + 2) = some Cmd.fill := by
  induction kps generalizing i with
  | nil => simp at h
  | cons kp rest ih =>
    cases i with
    | zero => simp [dotCalls]
    | succ j =>
      have hj : j < rest.length := by simpa using h
      have := ih j hj
      have e : 3 * (j + 1) + 2 = (3 * j + 2) + 3 := by ring
      rw [e]
      simpa [dotCalls] using this

theorem takeWhile_reaches_short (n : Nat) (h1 : 1 ≤ n) (h2 : n < 21) :
    (fingerLookupIndices.takeWhile fun e => reaches n e.2) =
      fingerLookupIndices.take ((n - 1) / 4) := by
  interval_cases n <;> rfl

theorem first_unreached (n : Nat) (h1 : 1 ≤ n) (h2 : n < 21) :
    ∃ e, fingerLookupIndices.get? ((n - 1) / 4) = some e ∧ reaches n e.2 = false := by
  interval_cases n <;> exact ⟨_, rfl, rfl⟩

theorem toNat_ofNat_small (n : Nat) (h : n < 55296) : (Char.ofNat n).toNat = n := by
  have hv : n.isValidChar := Or.inl h
  rw [Char.ofNat, dif_pos hv]
  rfl

theorem char_eq_iff_toNat (a b : Char) : a = b ↔ a.toNat = b.toNat := by
  constructor
  · intro h; rw [h]
  · intro h
    rw [← Char.ofNat_toNat a, ← Char.ofNat_toNat b, h]

theorem toNat_toUpper (c : Char) :
    c.toUpper.toNat = if 97 ≤ c.toNat ∧ c.toNat ≤ 122 then c.toNat - 32 else c.toNat := by
  unfold Char.toUpper
  by_cases h : c.toNat ≥ 97 ∧ c.toNat ≤ 122
  · simp only [h, and_self, if_true]
    exact toNat_ofNat_small _ (by omega)
  · simp only [h, if_false]

theorem toNat_toLower (c : Char) :
    c.toLower.toNat = if 65 ≤ c.toNat ∧ c.toNat ≤ 90 then c.toNat + 32 else c.toNat := by
  unfold Char.toLower
  by_cases h : c.toNat ≥ 65 ∧ c.toNat ≤ 90
  · simp only [h, and_self, if_true]
    exact toNat_ofNat_small _ (by omega)
  · simp only [h, if_false]

theorem toUpper_eq_iff_toLower_eq (a b : Char) :
    a.toUpper = b.toUpper ↔ a.toLower = b.toLower := by
  rw [char_eq_iff_toNat, char_eq_iff_toNat a.toLower, toNat_toUpper, toNat_toUpper,
    toNat_toLower, toNat_toLower]
  split_ifs <;> omega

theorem matchLiteral_iff (pat s : List Char) :
    matchLiteral pat s = true ↔
      ∃ mid after, s = mid ++ after ∧ mid.map Char.toLower = pat.map Char.toLower := by
  induction pat generalizing s with
  | nil =>
    simp only [matchLiteral, List.map_nil, List.map_eq_nil_iff, true_iff]
    exact ⟨[], s, rfl, rfl⟩
  | cons p ps ih =>
    cases s with
    | nil =>
      simp only [matchLiteral, Bool.false_eq_true, false_iff]
      rintro ⟨mid, after, hs, hmid⟩
      have hnil : mid = [] := by
        cases mid with
        | nil => rfl
        | cons _ _ => simp at hs
      rw [hnil] at hmid
      simp at hmid
    | cons c cs =>
      simp only [matchLiteral, canonicalize, Bool.and_eq_true, beq_iff_eq, ih cs]
      constructor
      · rintro ⟨hpc, mid, after, hcs, hmid⟩
        refine ⟨c :: mid, after, by rw [hcs]; rfl, ?_⟩
        rw [List.map_cons, List.map_cons, hmid, (toUpper_eq_iff_toLower_eq p c).mp hpc]
      · rintro ⟨mid, after, hs, hmid⟩
        cases mid with
        | nil => simp at hmid
        | cons m mid' =>
          rw [List.cons_append, List.cons.injEq] at hs
          rw [List.map_cons, List.map_cons, List.cons.injEq] at hmid
          refine ⟨?_, mid', after, hs.2, hmid.2⟩
          rw [toUpper_eq_iff_toLower_eq, hs.1]
          exact hmid.1.symm

theorem regexTest_iff (alts : List (List Char)) (s : List Char) :
    regexTest alts s = true ↔
      ∃ alt ∈ alts, ∃ before mid after, s = before ++ mid ++ after ∧
        mid.map Char.toLower = alt.map Char.toLower := by
  induction s with
  | nil =>
    simp only [regexTest, List.any_eq_true, matchLiteral_iff]
    constructor
    · rintro ⟨alt, halt, mid, after, hs, hmid⟩
      exact ⟨alt, halt, [], mid, after, hs, hmid⟩
    · rintro ⟨alt, halt, before, mid, after, hs, hmid⟩
      have hb : before = [] := by
        cases before with
        | nil => rfl
        | cons _ _ => simp at hs
      subst hb
      exact ⟨alt, halt, mid, after, hs, hmid⟩
  | cons c cs ih =>
    simp only [regexTest, Bool.or_eq_true, List.any_eq_true, matchLiteral_iff, ih]
    constructor
    · rintro (⟨alt, halt, mid, after, hs, hmid⟩ | ⟨alt, halt, before, mid, after, hs, hmid⟩)
      · exact ⟨alt, halt, [], mid, after, hs, hmid⟩
      · exact ⟨alt, halt, c :: before, mid, after, by rw [hs]; rfl, hmid⟩
    · rintro ⟨alt, halt, before, mid, after, hs, hmid⟩
      cases before with
      | nil => exact Or.inl ⟨alt, halt, mid, after, hs, hmid⟩
      | cons b before' =>
        rw [List.cons_append, List.cons_append, List.cons.injEq] at hs
        exact Or.inr ⟨alt, halt, before', mid, after, hs.2, hmid⟩

theorem isMobile_iff (userAgent : String) : isMobile userAgent = true ↔ mentionsMobile userAgent := by
  simp only [isMobile, Bool.or_eq_true, regexTest_iff, mentionsMobile, containsIgnoringCase,
    List.mem_cons, List.mem_singleton, List.not_mem_nil, or_false, exists_eq_left,
    exists_eq_or_imp]

/-- When camera and model become ready, `main` does enter the loops. -/
theorem main_starts_loops :
    (main desktopPlatform freshWorld).2 = .resolved () ∧
      (main desktopPlatform freshWorld).1.started =
        ["landmarksRealTime", "setupDatGui", "frameLandmarks", "initFingers", "animate"] := by
  decide

theorem drawKeypoints_append (ctx : Context) (kps : List Point) :
    drawKeypoints ctx kps =
      ⟨ctx ++ (drawKeypoints [] kps).ctx, (drawKeypoints [] kps).thrown⟩ := by
  rw [drawKeypoints_eq ctx, drawKeypoints_eq []]
  simp

/-! ## The claims -/

/-- Claim C1.  For every sequence of exactly 21 landmarks, the finger geometry
computed in `drawKeypoints` has exactly the five fingers thumb, indexFinger,
middleFinger, ringFinger, pinky, in that order; every finger has exactly five
points, all of them defined; and the first point of every finger is the
landmark at index 0, the wrist. -/
theorem fingerGeometry_shape (kps : List Point) (h : kps.length = 21) :
    (fingerGeometry kps).map Prod.fst =
        ["thumb", "indexFinger", "middleFinger", "ringFinger", "pinky"] ∧
      (fingerGeometry kps).length = 5 ∧
      ∃ wrist, kps.get? 0 = some wrist ∧
        ∀ g ∈ fingerGeometry kps,
          g.2.length = 5 ∧ g.2.get? 0 = some (some wrist) ∧ ∀ q ∈ g.2, q ≠ none := by
  obtain ⟨p0, p1, p2, p3, p4, p5, p6, p7, p8, p9, p10, p11, p12, p13, p14, p15, p16, p17,
    p18, p19, p20, rfl⟩ : ∃ p0 p1 p2 p3 p4 p5 p6 p7 p8 p9 p10 p11 p12 p13 p14 p15 p16 p17
      p18 p19 p20, kps = [p0, p1, p2, p3, p4, p5, p6, p7, p8, p9, p10, p11, p12, p13, p14,
        p15, p16, p17, p18, p19, p20] := by
    match kps, h with
    | [p0, p1, p2, p3, p4, p5, p6, p7, p8, p9, p10, p11, p12, p13, p14, p15, p16, p17, p18,
        p19, p20], _ =>
      exact ⟨p0, p1, p2, p3, p4, p5, p6, p7, p8, p9, p10, p11, p12, p13, p14, p15, p16, p17,
        p18, p19, p20, rfl⟩
  refine ⟨rfl, rfl, p0, rfl, ?_⟩
  intro g hg
  have hg' : g ∈ [("thumb", [some p0, some p1, some p2, some p3, some p4]),
      ("indexFinger", [some p0, some p5, some p6, some p7, some p8]),
      ("middleFinger", [some p0, some p9, some p10, some p11, some p12]),
      ("ringFinger", [some p0, some p13, some p14, some p15, some p16]),
      ("pinky", [some p0, some p17, some p18, some p19, some p20])] := hg
  simp only [List.mem_cons, List.mem_singleton, List.not_mem_nil, or_false] at hg'
  rcases hg' with rfl | rfl | rfl | rfl | rfl <;> simp

theorem fingerGeometry_shape_witness :
    sampleHand.length = 21 ∧
      (fingerGeometry sampleHand).map Prod.fst =
        ["thumb", "indexFinger", "middleFinger", "ringFinger", "pinky"] ∧
      (fingerGeometry sampleHand).length = 5 :=
  ⟨by decide, (fingerGeometry_shape sampleHand (by decide)).1,
    (fingerGeometry_shape sampleHand (by decide)).2.1⟩

/-- Claim C2.  For every sequence of exactly 21 landmarks, `drawKeypoints`
completes and adds to the recording surface exactly this: for each landmark in
order the three calls `beginPath`, `arc`, `fill` (21 point draws), then one
`stroke` per finger (5 strokes), 68 calls in all and nothing else. -/
theorem drawKeypoints_calls (ctx : Context) (kps : List Point) (h : kps.length = 21) :
    drawKeypoints ctx kps =
        ⟨ctx ++ (kps.map dotCalls).flatten ++
            fingerLookupIndices.map (fun e => fingerStroke kps e.2), none⟩ ∧
      (kps.map dotCalls).length = 21 ∧
      (fingerLookupIndices.map fun e => fingerStroke kps e.2).length = 5 ∧
      (drawKeypoints ctx kps).ctx.length = ctx.length + 3 * 21 + 5 := by
  have hrun := drawKeypoints_full ctx kps (by omega)
  refine ⟨hrun, by simp [h], by simp [fingerLookupIndices], ?_⟩
  rw [hrun]
  simp only [List.length_append, length_dots, h, List.length_map]
  rfl

theorem drawKeypoints_calls_witness :
    sampleHand.length = 21 ∧
      (drawKeypoints [] sampleHand).ctx.length = ([] : Context).length + 3 * 21 + 5 :=
  ⟨by decide, (drawKeypoints_calls [] sampleHand (by decide)).2.2.2⟩

/-- Claim C3.  For every landmark sequence with fewer than 21 points, the empty
one included, `drawKeypoints` throws a `TypeError`; it never completes
normally.  Every path it stroked before throwing is a full polyline of five
defined landmarks. -/
theorem drawKeypoints_short_throws (ctx : Context) (kps : List Point) (h : kps.length < 21) :
    (drawKeypoints ctx kps).thrown = some JSError.typeError ∧
      ∀ region, Cmd.stroke region ∈ (drawKeypoints [] kps).ctx →
        ∃ e ∈ fingerLookupIndices, reaches kps.length e.2 = true ∧
          region = polyline (e.2.map (landmark kps)) ∧ region.length = 5 := by
  have hall : fingerLookupIndices.all (fun e => reaches kps.length e.2) = false := by
    rw [← Bool.not_eq_true, reaches_all_iff]; omega
  constructor
  · rw [drawKeypoints_eq, hall]; rfl
  · intro region hmem
    rw [drawKeypoints_eq] at hmem
    simp only [List.nil_append, List.mem_append, List.mem_map] at hmem
    rcases hmem with hd | ⟨e, he, heq⟩
    · exact absurd hd (stroke_not_mem_dots kps region)
    · have hte := List.mem_takeWhile_imp he
      have hmem := (List.takeWhile_sublist _).subset he
      have hreg : region = polyline (e.2.map (landmark kps)) := by
        simpa [fingerStroke] using heq.symm
      refine ⟨e, hmem, hte, hreg, ?_⟩
      have h5 : ∀ e ∈ fingerLookupIndices, e.2.length = 5 := by decide
      rw [hreg, length_polyline, List.length_map, h5 e hmem]

theorem drawKeypoints_short_throws_witness :
    shortHand.length < 21 ∧
      (drawKeypoints [] shortHand).thrown = some JSError.typeError ∧
      Cmd.stroke (polyline ([0, 1, 2, 3, 4].map (landmark shortHand))) ∈
        (drawKeypoints [] shortHand).ctx ∧
      ∃ e ∈ fingerLookupIndices, reaches shortHand.length e.2 = true ∧
        polyline ([0, 1, 2, 3, 4].map (landmark shortHand)) =
          polyline (e.2.map (landmark shortHand)) ∧
        (polyline ([0, 1, 2, 3, 4].map (landmark shortHand))).length = 5 :=
  ⟨by decide, (drawKeypoints_short_throws [] shortHand (by decide)).1, by decide,
    (drawKeypoints_short_throws [] shortHand (by decide)).2 _ (by decide)⟩

/-- Claim C4 fails as stated.  On `sampleHand`, landmark 0 is at `(100, 200)`
and the arc drawn for it is `arc(98, 198, 3, 0, 2π)`, so the arc call for a
landmark is not in general `arc(landmark[i][0], landmark[i][1], 3, 0, 2π)`. -/
theorem arc_centre_counterexample :
    sampleHand.length = 21 ∧
      landmark sampleHand 0 = [100, 200, 0] ∧
      (drawKeypoints [] sampleHand).ctx.get? 1 =
        some (Cmd.arc (.num 98) (.num 198) 3 ⟨0⟩ ⟨2⟩) ∧
      ¬ (∀ kps : List Point, kps.length = 21 → ∀ i, i < 21 →
          (drawKeypoints [] kps).ctx.get? (3 * i + 1) =
            some (Cmd.arc (coord (landmark kps i) 0) (coord (landmark kps i) 1) 3 ⟨0⟩ ⟨2⟩)) := by
  refine ⟨by decide, by decide, by decide, ?_⟩
  intro hall
  have h0 := hall sampleHand (by decide) 0 (by decide)
  revert h0
  decide

/-- Claim C4, amended.  For every sequence of exactly 21 landmarks and every
`i` in `0..20`, `drawKeypoints` paints one filled circle for landmark `i`: the
calls `beginPath`, `arc(landmark[i][0] - 2, landmark[i][1] - 2, 3, 0, 2π)`,
`fill`, at positions `3 i`, `3 i + 1`, `3 i + 2` of what it adds to the
surface.  The centre is the landmark's `(x, y)` moved by 2 in each
coordinate. -/
theorem arc_centre_offset (ctx : Context) (kps : List Point) (h : kps.length = 21)
    (i : Nat) (hi : i < 21) :
    (drawKeypoints ctx kps).ctx.get? (ctx.length + 3 * i) = some Cmd.beginPath ∧
      (drawKeypoints ctx kps).ctx.get? (ctx.length + 3 * i + 1) =
        some (Cmd.arc ((coord (landmark kps i) 0).sub 2) ((coord (landmark kps i) 1).sub 2) 3
          ⟨0⟩ ⟨2⟩) ∧
      (drawKeypoints ctx kps).ctx.get? (ctx.length + 3 * i + 2) = some Cmd.fill := by
  have hi' : i < kps.length := by omega
  rw [drawKeypoints_eq]
  simp only [List.append_assoc]
  refine ⟨?_, ?_, ?_⟩
  · rw [List.get?_eq_getElem?, List.getElem?_append_right (by omega)]
    simpa using dots_begin_at kps _ i hi'
  · rw [List.get?_eq_getElem?, List.getElem?_append_right (by omega)]
    have e : ctx.length + 3 * i + 1 - ctx.length = 3 * i + 1 := by omega
    rw [e]
    simpa using dots_arc_at kps _ i hi'
  · rw [List.get?_eq_getElem?, List.getElem?_append_right (by omega)]
    have e : ctx.length + 3 * i + 2 - ctx.length = 3 * i + 2 := by omega
    rw [e]
    simpa using dots_fill_at kps _ i hi'

theorem arc_centre_offset_witness :
    sampleHand.length = 21 ∧ 0 < 21 ∧
      (drawKeypoints [] sampleHand).ctx.get? (([] : Context).length + 3 * 0 + 1) =
        some (Cmd.arc ((coord (landmark sampleHand 0) 0).sub 2)
          ((coord (landmark sampleHand 0) 1).sub 2) 3 ⟨0⟩ ⟨2⟩) :=
  ⟨by decide, by decide, (arc_centre_offset [] sampleHand (by decide) 0 (by decide)).2.1⟩

/-- Claim C5.  For every sequence of exactly 21 landmarks, the five paths
`drawKeypoints` strokes are, in table order, a `moveTo` at the `(x, y)` of
landmark 0 followed by exactly four `lineTo` calls at the `(x, y)` of landmarks
1-4, 5-8, 9-12, 13-16 and 17-20; none of them contains a `closePath`.  In
general `drawPath` on a non-empty list of points completes with one stroke
whose path contains `closePath` if and only if its `closePath` argument is
true. -/
theorem finger_polylines_open (ctx : Context) (kps : List Point) (h : kps.length = 21) :
    (let x := fun i => coord (landmark kps i) 0
     let y := fun i => coord (landmark kps i) 1
     drawKeypoints ctx kps =
      ⟨ctx ++ (kps.map dotCalls).flatten ++
        [ Cmd.stroke [.moveTo (x 0) (y 0), .lineTo (x 1) (y 1), .lineTo (x 2) (y 2),
            .lineTo (x 3) (y 3), .lineTo (x 4) (y 4)],
          Cmd.stroke [.moveTo (x 0) (y 0), .lineTo (x 5) (y 5), .lineTo (x 6) (y 6),
            .lineTo (x 7) (y 7), .lineTo (x 8) (y 8)],
          Cmd.stroke [.moveTo (x 0) (y 0), .lineTo (x 9) (y 9), .lineTo (x 10) (y 10),
            .lineTo (x 11) (y 11), .lineTo (x 12) (y 12)],
          Cmd.stroke [.moveTo (x 0) (y 0), .lineTo (x 13) (y 13), .lineTo (x 14) (y 14),
            .lineTo (x 15) (y 15), .lineTo (x 16) (y 16)],
          Cmd.stroke [.moveTo (x 0) (y 0), .lineTo (x 17) (y 17), .lineTo (x 18) (y 18),
            .lineTo (x 19) (y 19), .lineTo (x 20) (y 20)] ], none⟩) ∧
      (∀ region, Cmd.stroke region ∈ (drawKeypoints [] kps).ctx → PathOp.closePath ∉ region) ∧
      ∀ (surface : Context) (points : List Point) (closePath : Bool), points ≠ [] →
        ∃ region, drawPath surface (points.map some) closePath =
            ⟨surface ++ [Cmd.stroke region], none⟩ ∧
          (PathOp.closePath ∈ region ↔ closePath = true) := by
  have hrun := drawKeypoints_full ctx kps (by omega)
  refine ⟨?_, ?_, ?_⟩
  · rw [hrun]; rfl
  · intro region hmem
    rw [drawKeypoints_full [] kps (by omega)] at hmem
    simp only [List.nil_append, List.mem_append, List.mem_map] at hmem
    rcases hmem with hd | ⟨e, _, heq⟩
    · exact absurd hd (stroke_not_mem_dots kps region)
    · have hreg : region = polyline (e.2.map (landmark kps)) := by
        simpa [fingerStroke] using heq.symm
      rw [hreg]
      exact closePath_not_mem_polyline _
  · intro surface points closePath hne
    refine ⟨_, drawPath_defined surface points closePath hne, ?_⟩
    have := closePath_not_mem_polyline points
    cases closePath <;> simp [this]

theorem finger_polylines_open_witness :
    sampleHand.length = 21 ∧
      (∀ region, Cmd.stroke region ∈ (drawKeypoints [] sampleHand).ctx →
        PathOp.closePath ∉ region) ∧
      ([[1, 2, 0], [3, 4, 0]] : List Point) ≠ [] ∧
      ∃ region, drawPath [] (([[1, 2, 0], [3, 4, 0]] : List Point).map some) true =
          ⟨[] ++ [Cmd.stroke region], none⟩ ∧
        (PathOp.closePath ∈ region ↔ true = true) :=
  ⟨by decide, (finger_polylines_open [] sampleHand (by decide)).2.1, by decide,
    (finger_polylines_open [] sampleHand (by decide)).2.2 [] [[1, 2, 0], [3, 4, 0]] true
      (by decide)⟩

/-- Claim C9.  The finger table is well formed for 21 landmarks: every index in
it is below 21, index 0 occurs in each of the five fingers, every index from 1
to 20 occurs exactly once in the whole table, and the fingers cover every
index from 0 to 20.  Hence for every sequence of at least 21 landmarks whose
points have at least two coordinates each, every table lookup yields a point
with numeric `x` and `y`, and `drawKeypoints` completes without throwing. -/
theorem table_well_formed_and_total :
    (∀ e ∈ fingerLookupIndices, ∀ idx ∈ e.2, idx < 21) ∧
      (∀ e ∈ fingerLookupIndices, 0 ∈ e.2) ∧
      fingerLookupIndices.length = 5 ∧
      (∀ idx, 1 ≤ idx → idx ≤ 20 →
        (fingerLookupIndices.map fun e => e.2.count idx).sum = 1) ∧
      (∀ idx, idx ≤ 20 → ∃ e ∈ fingerLookupIndices, idx ∈ e.2) ∧
      ∀ (ctx : Context) (kps : List Point), 21 ≤ kps.length → (∀ p ∈ kps, 2 ≤ p.length) →
        (∀ e ∈ fingerLookupIndices, ∀ idx ∈ e.2, ∃ p x y, kps.get? idx = some p ∧
          coord p 0 = .num x ∧ coord p 1 = .num y) ∧
        (drawKeypoints ctx kps).thrown = none := by
  refine ⟨by decide, by decide, rfl, ?_, ?_, ?_⟩
  · intro idx h1 h2
    interval_cases idx <;> rfl
  · intro idx h2
    interval_cases idx <;> decide
  · intro ctx kps hlen hpts
    have hall := (reaches_all_iff kps.length).mpr hlen
    refine ⟨?_, ?_⟩
    · intro e he idx hidx
      have hlt : idx < 21 := by
        have : ∀ e ∈ fingerLookupIndices, ∀ idx ∈ e.2, idx < 21 := by decide
        exact this e he idx hidx
      have hk : idx < kps.length := by omega
      have hp := hpts (kps.get ⟨idx, hk⟩) (List.get_mem _ _ _)
      refine ⟨kps.get ⟨idx, hk⟩, ?_⟩
      match hq : kps.get ⟨idx, hk⟩, hp with
      | x :: y :: rest, _ =>
        exact ⟨x, y, by rw [← hq]; exact List.get?_eq_get hk, rfl, rfl⟩
    · rw [drawKeypoints_eq, hall]; rfl

theorem table_well_formed_and_total_witness :
    21 ≤ sampleHand.length ∧ (∀ p ∈ sampleHand, 2 ≤ p.length) ∧
      (drawKeypoints [] sampleHand).thrown = none :=
  ⟨by decide, by decide,
    (table_well_formed_and_total.2.2.2.2.2 [] sampleHand (by decide) (by decide)).2⟩

/-- Claim C10.  For every landmark sequence of length `n` with `1 ≤ n < 21`,
`drawKeypoints` throws a `TypeError` after it has added to the surface all `n`
point draws and one stroke for each of the first `(n - 1) / 4` fingers, and
nothing else.  Those are exactly the fingers that precede, in table order, the
first finger with an index of at least `n`; that finger and the ones after it
are not stroked. -/
theorem drawKeypoints_short_progress (ctx : Context) (kps : List Point)
    (h1 : 1 ≤ kps.length) (h2 : kps.length < 21) :
    drawKeypoints ctx kps =
        ⟨ctx ++ (kps.map dotCalls).flatten ++
          (fingerLookupIndices.take ((kps.length - 1) / 4)).map (fun e => fingerStroke kps e.2),
          some JSError.typeError⟩ ∧
      (kps.map dotCalls).length = kps.length ∧
      (fingerLookupIndices.take ((kps.length - 1) / 4)).length = (kps.length - 1) / 4 ∧
      fingerLookupIndices.take ((kps.length - 1) / 4) =
        fingerLookupIndices.takeWhile (fun e => e.2.all fun idx => decide (idx < kps.length)) ∧
      ∃ failing, fingerLookupIndices.get? ((kps.length - 1) / 4) = some failing ∧
        ∃ idx ∈ failing.2, kps.length ≤ idx := by
  have hall : fingerLookupIndices.all (fun e => reaches kps.length e.2) = false := by
    rw [← Bool.not_eq_true, reaches_all_iff]; omega
  have htake := takeWhile_reaches_short kps.length h1 h2
  refine ⟨?_, by simp, ?_, htake.symm, ?_⟩
  · rw [drawKeypoints_eq, hall, htake]; rfl
  · rw [List.length_take]
    have : fingerLookupIndices.length = 5 := rfl
    omega
  · obtain ⟨e, he, hr⟩ := first_unreached kps.length h1 h2
    refine ⟨e, he, ?_⟩
    have : ¬ (∀ idx ∈ e.2, idx < kps.length) := by
      intro hcon
      have : reaches kps.length e.2 = true := by
        simpa [reaches] using hcon
      rw [hr] at this
      exact Bool.false_ne_true this
    push_neg at this
    exact this

theorem drawKeypoints_short_progress_witness :
    1 ≤ shortHand.length ∧ shortHand.length < 21 ∧
      drawKeypoints [] shortHand =
        ⟨[] ++ (shortHand.map dotCalls).flatten ++
          (fingerLookupIndices.take ((shortHand.length - 1) / 4)).map
            (fun e => fingerStroke shortHand e.2),
          some JSError.typeError⟩ ∧
      (fingerLookupIndices.take ((shortHand.length - 1) / 4)).length = 4 :=
  ⟨by decide, by decide,
    (drawKeypoints_short_progress [] shortHand (by decide) (by decide)).1, by decide⟩

/-- Claim C7.  The capture request built by `setupCamera` has audio off and
facing mode `user`.  For every user agent that contains `Android`, `iPhone`,
`iPad` or `iPod`, letter case ignored, its width and height are both left
undefined; for every other user agent the width is 640 and the height 500.
When media capture is available this request is the one `setupCamera` hands to
`getUserMedia`. -/
theorem capture_request_resolution (userAgent : String) :
    (captureRequest (isMobile userAgent)).audio = false ∧
      (captureRequest (isMobile userAgent)).facingMode = "user" ∧
      (mentionsMobile userAgent →
        (captureRequest (isMobile userAgent)).width = none ∧
          (captureRequest (isMobile userAgent)).height = none) ∧
      (¬ mentionsMobile userAgent →
        (captureRequest (isMobile userAgent)).width = some 640 ∧
          (captureRequest (isMobile userAgent)).height = some 500) ∧
      ∀ (p : Platform) (w : World) (getUserMedia : Constraints → Settled Stream),
        p.navigator.userAgent = userAgent →
        p.navigator.mediaDevices = some ⟨some getUserMedia⟩ →
          (setupCamera p w).1.requests = w.requests ++ [captureRequest (isMobile userAgent)] := by
  refine ⟨rfl, rfl, ?_, ?_, ?_⟩
  · intro h
    have := (isMobile_iff userAgent).mpr h
    simp [captureRequest, this]
  · intro h
    have : isMobile userAgent = false := by
      rw [← Bool.not_eq_true, isMobile_iff]; exact h
    simp [captureRequest, this, VIDEO_WIDTH, VIDEO_HEIGHT]
  · intro p w getUserMedia hua hmd
    simp only [setupCamera, hmd, mobile, hua]
    cases getUserMedia (captureRequest (isMobile userAgent)) with
    | rejected e => rfl
    | pending => rfl
    | resolved s => cases p.loadedMetadata <;> rfl

theorem capture_request_resolution_witness :
    mentionsMobile "Mozilla/5.0 (Linux; ANDROID 10)" ∧
      (captureRequest (isMobile "Mozilla/5.0 (Linux; ANDROID 10)")).width = none ∧
      ¬ mentionsMobile "Mozilla/5.0 (X11; Linux x86_64)" ∧
      (captureRequest (isMobile "Mozilla/5.0 (X11; Linux x86_64)")).width = some 640 ∧
      (setupCamera desktopPlatform freshWorld).1.requests =
        freshWorld.requests ++ [captureRequest (isMobile "Mozilla/5.0 (X11; Linux x86_64)")] :=
  have hm : mentionsMobile "Mozilla/5.0 (Linux; ANDROID 10)" :=
    (isMobile_iff _).mp (by decide)
  have hd : ¬ mentionsMobile "Mozilla/5.0 (X11; Linux x86_64)" :=
    fun h => absurd ((isMobile_iff _).mpr h) (by decide)
  ⟨hm, ((capture_request_resolution _).2.2.1 hm).1, hd,
    ((capture_request_resolution _).2.2.2.1 hd).1,
    (capture_request_resolution _).2.2.2.2 desktopPlatform freshWorld _ rfl rfl⟩

/-- Claim C6 fails as stated.  On a platform without `navigator.mediaDevices`
on which `handpose.load()` rejects, `main` rejects with the load error before
the camera set-up is reached: the info element keeps its text and stays
hidden.  So absence of media capture alone does not make `main` show the
message and re-raise the camera error. -/
theorem capture_unavailable_counterexample :
    noCaptureNoModelPlatform.navigator.mediaDevices = none ∧
      (main noCaptureNoModelPlatform freshWorld).2 =
        .rejected (.error "model load failed") ∧
      (main noCaptureNoModelPlatform freshWorld).1.info =
        { textContent := "", display := "none" } ∧
      ¬ (∀ (p : Platform) (w : World),
          (p.navigator.mediaDevices = none ∨ p.navigator.mediaDevices = some ⟨none⟩) →
            (main p w).2 = .rejected captureUnavailable ∧
              (main p w).1.info =
                { textContent := captureUnavailable.message, display := "block" }) := by
  refine ⟨rfl, by decide, by decide, ?_⟩
  intro hall
  have h0 := (hall noCaptureNoModelPlatform freshWorld (Or.inl rfl)).1
  revert h0
  decide

/-- Claim C6, amended.  When `navigator.mediaDevices` or its `getUserMedia` is
absent, `setupCamera` fails with the error `captureUnavailable` and touches
nothing.  When in addition `handpose.load()` has resolved, so that `main`
reaches the camera set-up, `main` then sets the text of the info element to
that error's message, sets its display to `block` and rejects with the same
error.  In every case `main` never enters `landmarksRealTime`, so neither
`frameLandmarks` nor `animate` is started. -/
theorem capture_unavailable_halts (p : Platform) (w : World)
    (h : p.navigator.mediaDevices = none ∨ p.navigator.mediaDevices = some ⟨none⟩) :
    setupCamera p w = (w, .rejected captureUnavailable) ∧
      captureUnavailable.message =
        "Browser API navigator.mediaDevices.getUserMedia not available" ∧
      (∀ model, p.handposeLoad = .resolved model →
        (main p w).2 = .rejected captureUnavailable ∧
          (main p w).1.info =
            { textContent := captureUnavailable.message, display := "block" }) ∧
      (main p w).1.started = w.started := by
  have hsetup : setupCamera p w = (w, .rejected captureUnavailable) := by
    rcases h with h | h <;> simp [setupCamera, h]
  refine ⟨hsetup, rfl, ?_, ?_⟩
  · intro model hmodel
    simp [main, hmodel, loadVideo, hsetup]
  · cases hl : p.handposeLoad <;> simp [main, hl, loadVideo, hsetup]

theorem capture_unavailable_halts_witness :
    noCapturePlatform.navigator.mediaDevices = none ∧
      noCapturePlatform.handposeLoad = .resolved ⟨0⟩ ∧
      (main noCapturePlatform freshWorld).2 = .rejected captureUnavailable ∧
      (main noCapturePlatform freshWorld).1.info =
        { textContent := "Browser API navigator.mediaDevices.getUserMedia not available",
          display := "block" } ∧
      (main noCapturePlatform freshWorld).1.started = [] :=
  have h := capture_unavailable_halts noCapturePlatform freshWorld (Or.inl rfl)
  ⟨rfl, rfl, (h.2.2.1 ⟨0⟩ rfl).1, (h.2.2.1 ⟨0⟩ rfl).2, h.2.2.2⟩

/-- Claim C8.  One tick of `frameLandmarks` first draws the video frame.  For a
non-empty prediction list the calls that follow the video image are exactly
those of `drawKeypoints` on the landmarks of prediction 0, and the whole
outcome of the tick is the same for any two lists with the same first element.
For the empty list nothing follows the video image.  In both cases the next
tick is scheduled exactly once: for the empty list, and for every list whose
prediction 0 carries the landmark set `estimateHands` returns, 21 points (any
number from 21 up is covered).  The last part records how the scheduling
follows `drawKeypoints`: once when it completes, not at all when it throws. -/
theorem frame_uses_first_prediction (s : FrameState) :
    (∀ estimate, ∃ later, (frameLandmarks s estimate).1.ctx = s.ctx ++ videoImage s :: later) ∧
      (∀ first others,
        (frameLandmarks s (.resolved (first :: others))).1.ctx =
          s.ctx ++ videoImage s :: (drawKeypoints [] first.landmarks).ctx) ∧
      (∀ first others others',
        frameLandmarks s (.resolved (first :: others)) =
          frameLandmarks s (.resolved (first :: others'))) ∧
      (frameLandmarks s (.resolved [])).1.ctx = s.ctx ++ [videoImage s] ∧
      frameLandmarks s (.resolved []) =
        ({ s with
            ctx := s.ctx ++ [videoImage s]
            stats := s.stats ++ [StatsCall.begin, StatsCall.finish]
            animationFrames := s.animationFrames ++ ["frameLandmarks"] }, .resolved ()) ∧
      (∀ first others, 21 ≤ first.landmarks.length →
        (frameLandmarks s (.resolved (first :: others))).2 = .resolved () ∧
          (frameLandmarks s (.resolved (first :: others))).1.animationFrames =
            s.animationFrames ++ ["frameLandmarks"]) ∧
      ∀ first others,
        (frameLandmarks s (.resolved (first :: others))).1.animationFrames =
          s.animationFrames ++
            if (drawKeypoints [] first.landmarks).thrown = none then ["frameLandmarks"]
            else [] := by
  have hctx : ∀ first others,
      (frameLandmarks s (.resolved (first :: others))).1.ctx =
        s.ctx ++ videoImage s :: (drawKeypoints [] first.landmarks).ctx := by
    intro first others
    simp only [frameLandmarks]
    rw [drawKeypoints_append]
    cases (drawKeypoints [] first.landmarks).thrown <;> simp
  refine ⟨?_, hctx, ?_, ?_, ?_, ?_, ?_⟩
  · intro estimate
    match estimate with
    | .rejected e => exact ⟨[], rfl⟩
    | .pending => exact ⟨[], rfl⟩
    | .resolved [] => exact ⟨[], rfl⟩
    | .resolved (first :: others) => exact ⟨_, hctx first others⟩
  · intro first others others'
    rfl
  · rfl
  · simp [frameLandmarks]
  · intro first others hlen
    have hnone : (drawKeypoints (s.ctx ++ [videoImage s]) first.landmarks).thrown = none := by
      rw [drawKeypoints_eq, (reaches_all_iff _).mpr hlen]; rfl
    simp [frameLandmarks, hnone]
  · intro first others
    simp only [frameLandmarks]
    rw [drawKeypoints_append]
    cases (drawKeypoints [] first.landmarks).thrown <;> simp

theorem frame_uses_first_prediction_witness :
    21 ≤ (Prediction.mk sampleHand).landmarks.length ∧
      (frameLandmarks freshFrame (.resolved [⟨sampleHand⟩, ⟨[]⟩])).2 = .resolved () ∧
      (frameLandmarks freshFrame (.resolved [⟨sampleHand⟩, ⟨[]⟩])).1.animationFrames =
        freshFrame.animationFrames ++ ["frameLandmarks"] :=
  ⟨by decide,
    (frame_uses_first_prediction freshFrame).2.2.2.2.2.1 ⟨sampleHand⟩ [⟨[]⟩] (by decide)⟩


end Handtracking
